import Mathlib

/-!
Verification of the qlib GRU / ALSTM model training and inference code
(`qlib/contrib/model/pytorch_gru.py` and `qlib/contrib/model/pytorch_alstm_ts.py`)
against its natural-language specification.

The embedding choices:
* Validation scores are IEEE-like values `FVal`: `nan`, `negInf` (the initial
  `best_score = -np.inf`), or a rational number.  `fgt` is the strict `>`
  comparison with IEEE semantics on `nan` (always false).
* Network parameters are an abstract type `α`; one call to `train_epoch`
  is an abstract function `T : α → α` (only `train_epoch` mutates the
  parameters; `test_epoch` runs under `no_grad` and leaves them unchanged).
* Tensors are lists; entries of tensors that can hold NaN are `Option ℚ`
  with `none` standing for NaN (`F`).  Non-NaN numeric computation
  (gradient clipping, softmax) uses `ℚ` directly.
* Fallible operations return `Except String _`.
-/

/-- Floating-point-like value for validation scores: NaN, -infinity (the
initial `best_score`), or a finite number (modelled as a rational). -/
inductive FVal where
  | nan : FVal
  | negInf : FVal
  | num : ℚ → FVal
deriving DecidableEq

/-- IEEE-style strict greater-than on `FVal`: any comparison with NaN is
false, `-inf` is greater than nothing, a finite number is greater than
`-inf`, and finite numbers compare as rationals.  This models the Python
expression `val_score > best_score`. -/
def fgt : FVal → FVal → Bool
  | FVal.nan, _ => false
  | FVal.negInf, _ => false
  | FVal.num _, FVal.nan => false
  | FVal.num _, FVal.negInf => true
  | FVal.num a, FVal.num b => decide (b < a)

/-- Result of a completed `fit` run: the parameters loaded into the live
model by the final `load_state_dict(best_param)`, the number of epochs that
ran, the best epoch index (0-based, as in the code), the best validation
score, and the list of per-epoch checkpoint snapshots
(`model_<step>_params.pt`), in epoch order. -/
structure FitEnd (α : Type) where
  finalParams : α
  epochsRun : ℕ
  bestEpoch : ℕ
  bestScore : FVal
  ckpts : List α

/-- The final restore step `load_state_dict(best_param)` after the epoch
loop.  In `ALSTM.fit` the local variable `best_param` is only assigned
inside the improvement branch, so if it was never assigned Python raises
`UnboundLocalError`; we model the unassigned state as `none`. -/
def fitFinish {α : Type} (bestParam : Option α) (epochsRun bestEpoch : ℕ)
    (bestScore : FVal) (ckpts : List α) : Except String (FitEnd α) :=
  match bestParam with
  | none => Except.error "local variable best_param referenced before assignment"
  | some p => Except.ok ⟨p, epochsRun, bestEpoch, bestScore, ckpts⟩

/-- The shared epoch loop of `GRU.fit` and `ALSTM.fit`
(`for step in range(self.n_epochs): ...`), by recursion on the remaining
epoch budget.  Arguments after `hv` (whether a validation split is present;
always true in ALSTM): remaining epochs, current `step`, live parameters,
`best_param` (`none` = not yet assigned), `best_score`, `best_epoch`,
`stop_steps`, and the per-epoch checkpoints saved so far.  Each epoch first
runs `train_epoch` (the only parameter mutation) and saves a checkpoint of
the resulting `state_dict`; with a validation split, an improving score
(`val_score > best_score`) deep-copies the parameters into `best_param` and
resets `stop_steps`, otherwise `stop_steps` increments and the loop breaks
once it reaches `early_stop`. -/
def fitLoopGo {α : Type} (T : α → α) (s : ℕ → FVal) (E : ℕ) (hv : Bool) :
    ℕ → ℕ → α → Option α → FVal → ℕ → ℕ → List α → Except String (FitEnd α)
  | 0, step, _params, b0, bs, be, _ss, ck => fitFinish b0 step be bs ck
  | fuel+1, step, params, b0, bs, be, ss, ck =>
    let p2 := T params
    let ck2 := ck ++ [p2]
    if hv then
      if fgt (s step) bs then
        fitLoopGo T s E hv fuel (step+1) p2 (some p2) (s step) step 0 ck2
      else if E ≤ ss + 1 then
        fitFinish b0 (step+1) be bs ck2
      else
        fitLoopGo T s E hv fuel (step+1) p2 b0 bs be (ss+1) ck2
    else
      fitLoopGo T s E hv fuel (step+1) p2 b0 bs be ss ck2

/-- `GRU.fit` after the data checks: `best_param` is deep-copied from the
live model before the loop (line 276 of `pytorch_gru.py`), `best_score`
starts at `-np.inf`, and the loop runs with or without a validation split
(`hv`). -/
def gruFit {α : Type} (T : α → α) (s : ℕ → FVal) (nE E : ℕ) (hv : Bool)
    (init : α) : Except String (FitEnd α) :=
  fitLoopGo T s E hv nE 0 init (some init) FVal.negInf 0 0 []

/-- `ALSTM.fit` after the data checks: identical loop, but `best_param`
has no assignment before the loop (`pytorch_alstm_ts.py` lines 285-333),
and a validation split is always present. -/
def alstmFit {α : Type} (T : α → α) (s : ℕ → FVal) (nE E : ℕ)
    (init : α) : Except String (FitEnd α) :=
  fitLoopGo T s E true nE 0 init none FVal.negInf 0 0 []

/-- Entry checks of `GRU.fit`: raises iff the prepared training split is
empty; a validation split only takes part in the loop when the `valid`
segment exists and is non-empty (`x_valid is not None`). -/
def gruFitRun {α : Type} (T : α → α) (s : ℕ → FVal) (nE E : ℕ) (init : α)
    (trainEmpty validPresent validEmpty : Bool) : Except String (FitEnd α) :=
  if trainEmpty then
    Except.error "Empty training data from dataset, please check your dataset config."
  else gruFit T s nE E (validPresent && !validEmpty) init

/-- Entry checks of `ALSTM.fit`: raises iff the prepared training split or
the prepared validation split is empty (`dl_train.empty or dl_valid.empty`). -/
def alstmFitRun {α : Type} (T : α → α) (s : ℕ → FVal) (nE E : ℕ) (init : α)
    (trainEmpty validEmpty : Bool) : Except String (FitEnd α) :=
  if trainEmpty || validEmpty then
    Except.error "Empty data from dataset, please check your dataset config."
  else alstmFit T s nE E init

/-- The running `best_score` before epoch `i`, for a given sequence of
validation scores: `-inf` before epoch 0, updated by the same comparison
the loop performs.  (Early stopping cuts the run short but never alters
this recurrence on the epochs that do run.) -/
def gruBestScoreAt (s : ℕ → FVal) : ℕ → FVal
  | 0 => FVal.negInf
  | i+1 => if fgt (s i) (gruBestScoreAt s i) then s i else gruBestScoreAt s i

/-- Epoch `i` improves the validation score: `val_score > best_score`
holds at epoch `i`. -/
def gruImproves (s : ℕ → FVal) (i : ℕ) : Bool :=
  fgt (s i) (gruBestScoreAt s i)

/-- Whether an `Except` result is a success. -/
def isOkE {ε β : Type} : Except ε β → Bool
  | Except.ok _ => true
  | Except.error _ => false

/-- Tensor entry that may be NaN: `none` is NaN, `some q` a finite value. -/
abbrev F := Option ℚ

/-- NaN test on a tensor entry (`torch.isnan`). -/
def fIsNan (x : F) : Bool := x.isNone

/-- NaN-propagating subtraction. -/
def fSub : F → F → F
  | some a, some b => some (a - b)
  | _, _ => none

/-- NaN-propagating multiplication. -/
def fMul : F → F → F
  | some a, some b => some (a * b)
  | _, _ => none

/-- NaN-propagating sum of a list of entries. -/
def fSum (l : List F) : F :=
  l.foldr (fun x acc =>
    match x, acc with
    | some a, some b => some (a + b)
    | _, _ => none) (some 0)

/-- Division; a zero divisor gives NaN (it only arises from the
empty-tensor mean, where `torch.mean` returns NaN). -/
def fDiv : F → F → F
  | some a, some b => if b = 0 then none else some (a / b)
  | _, _ => none

/-- Mean of a tensor (`torch.mean`): NaN on an empty tensor, otherwise
sum divided by length. -/
def fMean (l : List F) : F :=
  if l.length = 0 then none else fDiv (fSum l) (some (l.length : ℚ))

/-- The boolean mask `~torch.isnan(label)`. -/
def maskOf (label : List F) : List Bool := label.map (fun x => !(fIsNan x))

/-- Boolean-mask indexing `xs[mask]`: keep the entries whose mask bit is
true, in order. -/
def maskSelect (xs : List F) (m : List Bool) : List F :=
  ((xs.zip m).filter (fun p => p.2)).map (fun p => p.1)

/-- `GRU.mse`: `mean((pred - label) ** 2)` elementwise over aligned
tensors. -/
def gruMse (pred label : List F) : F :=
  fMean ((pred.zip label).map (fun p => fMul (fSub p.1 p.2) (fSub p.1 p.2)))

/-- `GRU.loss_fn`: mask out NaN labels, then `mse` on the masked tensors;
any loss identifier other than `mse` raises. -/
def gruLossFn (loss : String) (pred label : List F) : Except String F :=
  let mask := maskOf label
  if loss = "mse" then
    Except.ok (gruMse (maskSelect pred mask) (maskSelect label mask))
  else Except.error ("unknown loss " ++ loss)

/-- `ALSTM.mse`: `mean(weight * (pred - label) ** 2)` elementwise. -/
def alstmMse (pred label weight : List F) : F :=
  fMean ((weight.zip ((pred.zip label).map (fun p => fMul (fSub p.1 p.2) (fSub p.1 p.2)))).map
    (fun p => fMul p.1 p.2))

/-- `torch.ones_like(label)`. -/
def onesLike (label : List F) : List F := label.map (fun _ => some 1)

/-- `ALSTM.loss_fn`: weight defaults to `torch.ones_like(label)` when not
given; mask out NaN labels from `pred`, `label` and `weight` alike, then
the weighted `mse`; any loss identifier other than `mse` raises. -/
def alstmLossFn (loss : String) (pred label : List F) (weight : Option (List F)) :
    Except String F :=
  let mask := maskOf label
  let w := weight.getD (onesLike label)
  if loss = "mse" then
    Except.ok (alstmMse (maskSelect pred mask) (maskSelect label mask) (maskSelect w mask))
  else Except.error ("unknown loss " ++ loss)

/-- The pre-filtered pairing used as the masking specification: zip `xs`
with the labels and drop every pair whose label is NaN. -/
def nanFreePairs (xs label : List F) : List (F × F) :=
  (xs.zip label).filter (fun p => !(fIsNan p.2))

/-- A numpy array appended to `preds` by one iteration of `GRU.predict`:
either 0-dimensional or 1-dimensional. -/
inductive NpArr where
  | scalar : ℚ → NpArr
  | arr : List ℚ → NpArr

/-- The `.squeeze()` at the end of `GRUModel.forward`: the `fc_out` output
of shape `[n, 1]` becomes a 1-d tensor of length `n` — except that for a
single-row batch (`n = 1`) squeeze collapses both size-1 dimensions and
yields a 0-dimensional tensor, which `.numpy()` turns into a 0-d array. -/
def squeezeOut (ys : List ℚ) : NpArr :=
  match ys with
  | [y] => NpArr.scalar y
  | ys => NpArr.arr ys

/-- Whether a collected per-batch array is 0-dimensional. -/
def npIsZeroDim : NpArr → Bool
  | NpArr.scalar _ => true
  | NpArr.arr _ => false

/-- The values of a collected per-batch array. -/
def npArrVals : NpArr → List ℚ
  | NpArr.scalar y => [y]
  | NpArr.arr ys => ys

/-- The error message `np.concatenate` raises on a 0-d input array. -/
def zeroDimMsg : String := "zero-dimensional arrays cannot be concatenated"

/-- `np.concatenate(preds)`: raises on an empty list of arrays and on any
0-dimensional input array; otherwise joins the 1-d arrays in order. -/
def npConcatenate (preds : List NpArr) : Except String (List ℚ) :=
  if preds.isEmpty then Except.error "need at least one array to concatenate"
  else if preds.any npIsZeroDim then Except.error zeroDimMsg
  else Except.ok ((preds.map npArrVals).foldr (fun a b => a ++ b) [])

/-- The batched inference loop of `GRU.predict`: `begin` advances by
`batch_size`; a final batch shorter than `batch_size` extends to the end
of the data (`end = sample_num`).  `net` maps a batch of rows to its
per-row predictions (the `fc_out` column before squeeze); each batch's
output passes through `squeezeOut` before being appended to `preds`.
Recursion is by a fuel bound on the number of iterations. -/
def gruPredictBatches {γ : Type} (net : List γ → List ℚ) (bs : ℕ) :
    ℕ → List γ → List NpArr
  | 0, _ => []
  | fuel+1, xs =>
    if xs.isEmpty then []
    else if xs.length < bs then [squeezeOut (net xs)]
    else squeezeOut (net (xs.take bs)) :: gruPredictBatches net bs fuel (xs.drop bs)

/-- `GRU.predict` after the fitted check: run the batch loop over the
prepared rows, concatenate the collected arrays, and return the pandas
Series `(values, index)` built with the segment's original row index.
`np.concatenate` raises when any batch produced a 0-d array, i.e. when
some batch had exactly one row. -/
def gruPredictSeriesE {γ ι : Type} (net : List γ → List ℚ) (bs : ℕ)
    (xs : List γ) (idx : List ι) : Except String (List ℚ × List ι) :=
  (npConcatenate (gruPredictBatches net bs (xs.length + 1) xs)).map
    (fun vs => (vs, idx))

/-- The batched inference loop of `ALSTM.predict`: a `DataLoader` without
`drop_last` yields consecutive chunks of `batch_size` rows, the last chunk
possibly smaller. -/
def alstmPredictGo {γ : Type} (net : List γ → List ℚ) (bs : ℕ) :
    ℕ → List γ → List ℚ
  | 0, _ => []
  | fuel+1, xs =>
    if xs.isEmpty then []
    else net (xs.take bs) ++ alstmPredictGo net bs fuel (xs.drop bs)

/-- `ALSTM.predict` after the fitted check: batch loop plus the Series
built with `dl_test.get_index()`. -/
def alstmPredictSeries {γ ι : Type} (net : List γ → List ℚ) (bs : ℕ)
    (xs : List γ) (idx : List ι) : List ℚ × List ι :=
  (alstmPredictGo net bs (xs.length + 1) xs, idx)

/-- The error message of `predict` on an unfitted model. -/
def notFittedMsg : String := "model is not fitted yet!"

/-- `GRU.predict` including its first statement: raise the not-ready error
when `self.fitted` is false, otherwise run the inference loop (which can
itself raise, but never with the not-ready message). -/
def gruPredictChecked {γ ι : Type} (fitted : Bool) (net : List γ → List ℚ)
    (bs : ℕ) (xs : List γ) (idx : List ι) : Except String (List ℚ × List ι) :=
  if fitted then gruPredictSeriesE net bs xs idx
  else Except.error notFittedMsg

/-- The model-instance state relevant to the fitted-flag lifecycle: the
network parameters (`state_dict`) and the `fitted` flag. -/
structure GRUInstance (α : Type) where
  params : α
  fitted : Bool

/-- Construction (`GRU.__init__` lines 137-145): with an existing
`init_model_path` checkpoint the saved parameters are loaded and `fitted`
is set; otherwise the fresh default parameters are kept and `fitted` is
false. -/
def gruInit {α : Type} (defaultParams : α) (ckpt : Option α) : GRUInstance α :=
  match ckpt with
  | some p => { params := p, fitted := true }
  | none => { params := defaultParams, fitted := false }

/-- `fit` sets `self.fitted = True` (before the epoch loop). -/
def gruMarkFitted {α : Type} (m : GRUInstance α) : GRUInstance α :=
  { m with fitted := true }

/-- `torch.save(self.gru_model.state_dict(), path)`: the checkpoint file
holds exactly the parameter mapping. -/
def saveStateDict {α : Type} (m : GRUInstance α) : α := m.params

/-- Predict through a model instance: the network function is determined
by the instance's parameters (`eval()` mode, so the forward pass is a pure
function of parameters and input). -/
def gruStatePredict {α γ ι : Type} (netOf : α → List γ → List ℚ)
    (m : GRUInstance α) (bs : ℕ) (xs : List γ) (idx : List ι) :
    Except String (List ℚ × List ι) :=
  gruPredictChecked m.fitted (netOf m.params) bs xs idx

/-- Elementwise gradient clipping
(`torch.nn.utils.clip_grad_value_(params, c)`): each gradient entry is
clamped into `[-c, c]`. -/
def clipGradValue (c : ℚ) (grads : List ℚ) : List ℚ :=
  grads.map (fun g => min (max g (-c)) c)

/-- The clip value used in `train_epoch` of both models: `3.0`. -/
def gruClipValue : ℚ := 3

/-- The gradient entries of all network parameters as they stand between
the `clip_grad_value_` call and `optimizer.step()` in `train_epoch`, as a
function of the raw gradients produced by `loss.backward()`. -/
def trainEpochClippedGrads (raw : List ℚ) : List ℚ :=
  clipGradValue gruClipValue raw

/-- The softmax normalization at the end of `att_net`
(`nn.Softmax(dim=1)` over the per-time-step scores), parameterized by the
pointwise kernel `e` (the exponential in the real softmax; only its strict
positivity matters). -/
def attSoftmax (e : ℚ → ℚ) (scores : List ℚ) : List ℚ :=
  scores.map (fun x => e x / (scores.map e).sum)

/-- The attention weights of one example in `ALSTMModel.forward`:
`att_net` maps each time-step's hidden vector to a scalar score
(`att_fc_in`, dropout, `tanh`, `att_fc_out`, abstracted as `scoreFn`), then
normalizes the scores across the time dimension with softmax. -/
def attNetWeights {ρ : Type} (e : ℚ → ℚ) (scoreFn : ρ → ℚ)
    (hidden : List ρ) : List ℚ :=
  attSoftmax e (hidden.map scoreFn)

/-- Synthetic validation-score sequence for witnesses: improves at epochs
0 and 1, then NaN forever. -/
def sWit : ℕ → FVal :=
  fun i => if i = 0 then FVal.num 0 else if i = 1 then FVal.num 1 else FVal.nan

/-- Improving at epoch `i` updates the running best score to the score of
epoch `i`. -/
lemma gruBestScoreAt_succ_improve (s : ℕ → FVal) (i : ℕ)
    (h : gruImproves s i = true) : gruBestScoreAt s (i+1) = s i := by
  simp only [gruImproves] at h
  simp only [gruBestScoreAt, h, if_true]

/-- Not improving at epoch `i` leaves the running best score unchanged. -/
lemma gruBestScoreAt_succ_noimprove (s : ℕ → FVal) (i : ℕ)
    (h : gruImproves s i = false) : gruBestScoreAt s (i+1) = gruBestScoreAt s i := by
  simp only [gruImproves] at h
  simp only [gruBestScoreAt, h, Bool.false_eq_true, if_false]

/-- Shift the head out of a range of checkpoint snapshots. -/
lemma ckptsRange {α : Type} (T : α → α) (p : α) (j : ℕ) :
    (List.range (j+1)).map (fun i => T^[i+1] p) =
      T p :: (List.range j).map (fun i => T^[i+1] (T p)) := by
  rw [List.range_succ_eq_map, List.map_cons, List.map_map]
  refine congrArg₂ _ (by simp) ?_
  apply List.map_congr_left
  intro a _
  simp [Function.comp, Function.iterate_succ_apply]

/-- Improving phase of the epoch loop: if every epoch in the next `j ≥ 1`
epochs improves the validation score, the loop reaches the state after
those `j` epochs with the best parameters equal to the live parameters. -/
lemma fitLoopGo_improve {α : Type} (T : α → α) (s : ℕ → FVal) (E : ℕ) :
    ∀ j, 1 ≤ j → ∀ fuel step params (b0 : Option α) be ss ck, j ≤ fuel →
    (∀ i, step ≤ i → i < step + j → gruImproves s i = true) →
    fitLoopGo T s E true fuel step params b0 (gruBestScoreAt s step) be ss ck =
      fitLoopGo T s E true (fuel - j) (step + j) (T^[j] params) (some (T^[j] params))
        (gruBestScoreAt s (step + j)) (step + j - 1) 0
        (ck ++ (List.range j).map (fun i => T^[i+1] params)) := by
  intro j
  induction j with
  | zero => intro h; exact absurd h (by omega)
  | succ j ih =>
    intro _ fuel step params b0 be ss ck hle himp
    obtain ⟨f, rfl⟩ : ∃ f, fuel = f + 1 := ⟨fuel - 1, by omega⟩
    have hstep : fgt (s step) (gruBestScoreAt s step) = true :=
      himp step le_rfl (by omega)
    rw [fitLoopGo]
    simp only [if_true, hstep, if_pos]
    rcases Nat.eq_zero_or_pos j with hj0 | hj1
    · subst hj0
      have e1 : f + 1 - 1 = f := by omega
      have e2 : step + 1 - 1 = step := by omega
      have hr : List.range 1 = [0] := rfl
      rw [e1, e2, gruBestScoreAt_succ_improve s step (by simpa [gruImproves] using hstep), hr]
      simp [Function.iterate_one]
    · have hbs : s step = gruBestScoreAt s (step + 1) :=
        (gruBestScoreAt_succ_improve s step (by simpa [gruImproves] using hstep)).symm
      rw [hbs, ih hj1 f (step + 1) (T params) (some (T params)) step 0 (ck ++ [T params])
        (by omega) (fun i h1 h2 => himp i (by omega) (by omega))]
      have e1 : f + 1 - (j + 1) = f - j := by omega
      have e2 : step + (j + 1) = step + 1 + j := by omega
      have e3 : T^[j + 1] params = T^[j] (T params) := Function.iterate_succ_apply T j params
      rw [e1, e2, e3, ckptsRange]
      simp

/-- Non-improving phase, fuel exhausted first: with no improvement from
`step` on and fewer than `early_stop - stop_steps` epochs of budget left,
the loop runs out of epochs with the best state unchanged. -/
lemma fitLoopGo_noimp_exhaust {α : Type} (T : α → α) (s : ℕ → FVal) (E : ℕ) :
    ∀ fuel step params (b0 : Option α) be ss ck,
    (∀ i, step ≤ i → gruImproves s i = false) →
    ss + fuel < E →
    fitLoopGo T s E true fuel step params b0 (gruBestScoreAt s step) be ss ck =
      fitFinish b0 (step + fuel) be (gruBestScoreAt s step)
        (ck ++ (List.range fuel).map (fun i => T^[i+1] params)) := by
  intro fuel
  induction fuel with
  | zero => intro step params b0 be ss ck _ _; simp [fitLoopGo]
  | succ f ih =>
    intro step params b0 be ss ck hni hlt
    have hstep : fgt (s step) (gruBestScoreAt s step) = false := by
      have := hni step le_rfl
      simpa [gruImproves] using this
    rw [fitLoopGo]
    simp only [if_true, hstep, Bool.false_eq_true, if_false]
    rw [if_neg (by omega)]
    have hbs : gruBestScoreAt s step = gruBestScoreAt s (step + 1) :=
      (gruBestScoreAt_succ_noimprove s step (hni step le_rfl)).symm
    rw [hbs, ih (step + 1) (T params) b0 be (ss + 1) (ck ++ [T params])
      (fun i h1 => hni i (by omega)) (by omega)]
    have e1 : step + 1 + f = step + (f + 1) := by omega
    rw [e1, ← hbs, ckptsRange]
    simp

/-- Non-improving phase, early stop reached first: with no improvement
from `step` on and enough budget, the loop breaks after exactly
`early_stop - stop_steps` further epochs, with the best state unchanged. -/
lemma fitLoopGo_noimp_break {α : Type} (T : α → α) (s : ℕ → FVal) (E : ℕ) :
    ∀ fuel step params (b0 : Option α) be ss ck,
    (∀ i, step ≤ i → gruImproves s i = false) →
    ss < E → E ≤ ss + fuel →
    fitLoopGo T s E true fuel step params b0 (gruBestScoreAt s step) be ss ck =
      fitFinish b0 (step + (E - ss)) be (gruBestScoreAt s step)
        (ck ++ (List.range (E - ss)).map (fun i => T^[i+1] params)) := by
  intro fuel
  induction fuel with
  | zero => intro step params b0 be ss ck _ h1 h2; exact absurd h2 (by omega)
  | succ f ih =>
    intro step params b0 be ss ck hni hlt hge
    have hstep : fgt (s step) (gruBestScoreAt s step) = false := by
      have := hni step le_rfl
      simpa [gruImproves] using this
    rw [fitLoopGo]
    simp only [if_true, hstep, Bool.false_eq_true, if_false]
    by_cases hbr : E ≤ ss + 1
    · rw [if_pos hbr]
      have e1 : E - ss = 1 := by omega
      have hr : List.range 1 = [0] := rfl
      rw [e1, hr]
      simp [Function.iterate_one]
    · rw [if_neg hbr]
      have hbs : gruBestScoreAt s step = gruBestScoreAt s (step + 1) :=
        (gruBestScoreAt_succ_noimprove s step (hni step le_rfl)).symm
      rw [hbs, ih (step + 1) (T params) b0 be (ss + 1) (ck ++ [T params])
        (fun i h1 => hni i (by omega)) (by omega) (by omega)]
      obtain ⟨m, hm⟩ : ∃ m, E - ss = m + 1 := ⟨E - ss - 1, by omega⟩
      have e1 : E - (ss + 1) = m := by omega
      have e2 : step + 1 + m = step + (m + 1) := by omega
      rw [e1, e2, ← hbs, hm, ckptsRange]
      simp

/-- With no validation split, the epoch loop runs its whole budget and
never touches the best state. -/
lemma fitLoopGo_novalid {α : Type} (T : α → α) (s : ℕ → FVal) (E : ℕ) :
    ∀ fuel step params (b0 : Option α) bs be ss ck,
    fitLoopGo T s E false fuel step params b0 bs be ss ck =
      fitFinish b0 (step + fuel) be bs
        (ck ++ (List.range fuel).map (fun i => T^[i+1] params)) := by
  intro fuel
  induction fuel with
  | zero => intro step params b0 bs be ss ck; simp [fitLoopGo]
  | succ f ih =>
    intro step params b0 bs be ss ck
    rw [fitLoopGo]
    simp only [Bool.false_eq_true, if_false]
    rw [ih]
    have e1 : step + 1 + f = step + (f + 1) := by omega
    rw [e1, ckptsRange]
    simp

/-- The epoch loop never raises once `best_param` has a value. -/
lemma fitLoopGo_some_isOk {α : Type} (T : α → α) (s : ℕ → FVal) (E : ℕ) (hv : Bool) :
    ∀ fuel step params (b : α) bs be ss ck,
    isOkE (fitLoopGo T s E hv fuel step params (some b) bs be ss ck) = true := by
  intro fuel
  induction fuel with
  | zero => intro step params b bs be ss ck; simp [fitLoopGo, fitFinish, isOkE]
  | succ f ih =>
    intro step params b bs be ss ck
    cases hv with
    | false =>
      simp only [fitLoopGo, Bool.false_eq_true, if_false]
      exact ih (step+1) (T params) b bs be ss (ck ++ [T params])
    | true =>
      simp only [fitLoopGo, if_true]
      by_cases himp : fgt (s step) bs = true
      · rw [if_pos himp]
        exact ih (step+1) (T params) (T params) (s step) step 0 (ck ++ [T params])
      · rw [if_neg himp]
        by_cases hbr : E ≤ ss + 1
        · rw [if_pos hbr]; simp [fitFinish, isOkE]
        · rw [if_neg hbr]
          exact ih (step+1) (T params) b bs be (ss+1) (ck ++ [T params])

/-- If no epoch's score beats the standing best score, `best_param` keeps
its `none` state and the final restore raises. -/
lemma fitLoopGo_none_err {α : Type} (T : α → α) (s : ℕ → FVal) (E : ℕ) (bs : FVal)
    (hni : ∀ i, fgt (s i) bs = false) :
    ∀ fuel step params be ss ck,
    fitLoopGo T s E true fuel step params (none : Option α) bs be ss ck =
      Except.error "local variable best_param referenced before assignment" := by
  intro fuel
  induction fuel with
  | zero => intro step params be ss ck; simp [fitLoopGo, fitFinish]
  | succ f ih =>
    intro step params be ss ck
    simp only [fitLoopGo, if_true, hni step, Bool.false_eq_true, if_false]
    by_cases hbr : E ≤ ss + 1
    · rw [if_pos hbr]; simp [fitFinish]
    · rw [if_neg hbr]; exact ih (step+1) (T params) be (ss+1) (ck ++ [T params])

/-- Full early-stopping scenario on the shared epoch loop, for either
initial `best_param` state: `k ≥ 1` improving epochs followed by
non-improving epochs give `min (k + early_stop) n_epochs` epochs run and
the epoch-`k` snapshot as the restored parameters. -/
lemma fitLoop_scenario {α : Type} (T : α → α) (s : ℕ → FVal) (nE E k : ℕ)
    (init : α) (b0 : Option α)
    (hk : 1 ≤ k) (hE : 1 ≤ E) (hnE : 1 ≤ nE)
    (himp : ∀ i, i < k → gruImproves s i = true)
    (hnoimp : ∀ i, k ≤ i → gruImproves s i = false) :
    ∃ be bs ck, fitLoopGo T s E true nE 0 init b0 FVal.negInf 0 0 [] =
      fitFinish (some (T^[min k nE] init)) (min (k + E) nE) be bs ck := by
  have h0 : FVal.negInf = gruBestScoreAt s 0 := rfl
  rw [h0]
  by_cases hkn : k ≤ nE
  · have himp2 : ∀ i, 0 ≤ i → i < 0 + k → gruImproves s i = true := by
      intro i _ h2; exact himp i (by omega)
    rw [fitLoopGo_improve T s E k hk nE 0 init b0 0 0 [] hkn himp2]
    simp only [Nat.zero_add, List.nil_append]
    have hnoimp2 : ∀ i, k ≤ i → gruImproves s i = false := hnoimp
    by_cases hbr : E ≤ nE - k
    · rw [fitLoopGo_noimp_break T s E (nE - k) k (T^[k] init)
        (some (T^[k] init)) (k - 1) 0 ((List.range k).map (fun i => T^[i+1] init))
        hnoimp2 (by omega) (by omega)]
      have e1 : E - 0 = E := by omega
      have e2 : min k nE = k := by omega
      have e3 : min (k + E) nE = k + E := by omega
      rw [e1, e2, e3]
      exact ⟨k - 1, gruBestScoreAt s k, _, rfl⟩
    · rw [fitLoopGo_noimp_exhaust T s E (nE - k) k (T^[k] init)
        (some (T^[k] init)) (k - 1) 0 ((List.range k).map (fun i => T^[i+1] init))
        hnoimp2 (by omega)]
      have e1 : k + (nE - k) = nE := by omega
      have e2 : min k nE = k := by omega
      have e3 : min (k + E) nE = nE := by omega
      rw [e1, e2, e3]
      exact ⟨k - 1, gruBestScoreAt s k, _, rfl⟩
  · have himp2 : ∀ i, 0 ≤ i → i < 0 + nE → gruImproves s i = true := by
      intro i _ h2; exact himp i (by omega)
    rw [fitLoopGo_improve T s E nE hnE nE 0 init b0 0 0 [] le_rfl himp2]
    have e0 : nE - nE = 0 := by omega
    rw [e0]
    simp only [Nat.zero_add, List.nil_append, fitLoopGo]
    have e2 : min k nE = nE := by omega
    have e3 : min (k + E) nE = nE := by omega
    rw [e2, e3]
    exact ⟨nE - 1, gruBestScoreAt s nE, _, rfl⟩

/-- C1: in a run of `fit` whose validation score improves at each of the
first `k ≥ 1` epochs and never afterwards (epochs counted 1-based, so the
best epoch is the `k`-th), both `GRU.fit` and `ALSTM.fit` run exactly
`min (k + early_stop) n_epochs` epochs, and the final
`load_state_dict(best_param)` restores the parameter snapshot deep-copied
at the best epoch, i.e. the parameters after `min k n_epochs` calls of
`train_epoch`. -/
theorem fit_early_stopping {α : Type} (T : α → α) (s : ℕ → FVal) (init : α)
    (nE E k : ℕ) (hk : 1 ≤ k) (hE : 1 ≤ E) (hnE : 1 ≤ nE)
    (himp : ∀ i, i < k → gruImproves s i = true)
    (hnoimp : ∀ i, k ≤ i → gruImproves s i = false) :
    ((gruFit T s nE E true init).toOption.map FitEnd.epochsRun = some (min (k + E) nE)
      ∧ (gruFit T s nE E true init).toOption.map FitEnd.finalParams
          = some (T^[min k nE] init))
    ∧ ((alstmFit T s nE E init).toOption.map FitEnd.epochsRun = some (min (k + E) nE)
      ∧ (alstmFit T s nE E init).toOption.map FitEnd.finalParams
          = some (T^[min k nE] init)) := by
  obtain ⟨be1, bs1, ck1, h1⟩ :=
    fitLoop_scenario T s nE E k init (some init) hk hE hnE himp hnoimp
  obtain ⟨be2, bs2, ck2, h2⟩ :=
    fitLoop_scenario T s nE E k init none hk hE hnE himp hnoimp
  constructor
  · rw [gruFit, h1]; constructor <;> simp [fitFinish, Except.toOption]
  · rw [alstmFit, h2]; constructor <;> simp [fitFinish, Except.toOption]

/-- After epoch 1, the synthetic witness scores never improve. -/
lemma sWit_noimp : ∀ i, 2 ≤ i → gruImproves sWit i = false := by
  intro i hi
  have h0 : ¬ i = 0 := by omega
  have h1 : ¬ i = 1 := by omega
  simp only [gruImproves, sWit, if_neg h0, if_neg h1]
  rfl

/-- Witness for C1: two improving epochs then NaN scores, with
`n_epochs = 10` and `early_stop = 2`, on parameters counted by `Nat.succ`. -/
theorem fit_early_stopping_witness :
    (1 ≤ 2 ∧ 1 ≤ 10
      ∧ (∀ i, i < 2 → gruImproves sWit i = true)
      ∧ (∀ i, 2 ≤ i → gruImproves sWit i = false))
    ∧ (((gruFit Nat.succ sWit 10 2 true 0).toOption.map FitEnd.epochsRun
          = some (min (2 + 2) 10)
      ∧ (gruFit Nat.succ sWit 10 2 true 0).toOption.map FitEnd.finalParams
          = some (Nat.succ^[min 2 10] 0))
      ∧ ((alstmFit Nat.succ sWit 10 2 0).toOption.map FitEnd.epochsRun
          = some (min (2 + 2) 10)
      ∧ (alstmFit Nat.succ sWit 10 2 0).toOption.map FitEnd.finalParams
          = some (Nat.succ^[min 2 10] 0))) :=
  ⟨⟨by decide, by decide, by decide, sWit_noimp⟩,
    fit_early_stopping Nat.succ sWit 0 10 2 2 (by decide) (by decide) (by decide)
      (by decide) sWit_noimp⟩

/-- C9: with no `valid` segment, `GRU.fit` runs all `n_epochs` epochs with
no early stopping and then loads the pre-loop snapshot back into the live
model: the final parameters equal the initial ones, while the per-epoch
checkpoint files hold the trained parameters of each epoch. -/
theorem gru_fit_no_valid_restores_init {α : Type} (T : α → α) (s : ℕ → FVal)
    (nE E : ℕ) (init : α) :
    gruFit T s nE E false init =
      Except.ok ⟨init, nE, 0, FVal.negInf,
        (List.range nE).map (fun i => T^[i+1] init)⟩ := by
  rw [gruFit, fitLoopGo_novalid]
  simp [fitFinish]

/-- C10: if no epoch's validation score is strictly greater than the
initial best score of `-inf` (e.g. every score is NaN), `ALSTM.fit`
raises the unbound-variable error at its final restore step, because
`best_param` is assigned only inside the improvement branch; `GRU.fit`,
which deep-copies the parameters before the loop, succeeds on the same
scores. -/
theorem alstm_fit_unbound_best_param {α : Type} (T : α → α) (s : ℕ → FVal)
    (nE E : ℕ) (init : α)
    (hni : ∀ i, fgt (s i) FVal.negInf = false) :
    alstmFit T s nE E init =
      Except.error "local variable best_param referenced before assignment"
    ∧ isOkE (gruFit T s nE E true init) = true := by
  constructor
  · rw [alstmFit, fitLoopGo_none_err T s E FVal.negInf hni]
  · rw [gruFit]
    exact fitLoopGo_some_isOk T s E true nE 0 init init FVal.negInf 0 0 []

/-- Witness for C10: all-NaN validation scores. -/
theorem alstm_fit_unbound_best_param_witness :
    (∀ i, fgt ((fun _ : ℕ => FVal.nan) i) FVal.negInf = false)
    ∧ (alstmFit Nat.succ (fun _ : ℕ => FVal.nan) 3 2 0 =
        Except.error "local variable best_param referenced before assignment"
      ∧ isOkE (gruFit Nat.succ (fun _ : ℕ => FVal.nan) 3 2 true 0) = true) :=
  ⟨fun _ => rfl,
    alstm_fit_unbound_best_param Nat.succ (fun _ : ℕ => FVal.nan) 3 2 0 (fun _ => rfl)⟩

/-- C8: `GRU.fit` raises the invalid-input error before any epoch runs
exactly when the prepared training split is empty, and succeeds for a
non-empty training split regardless of the validation split being absent
or empty; `ALSTM.fit` raises it when the training split or the validation
split is empty. -/
theorem fit_empty_split_check {α : Type} (T : α → α) (s : ℕ → FVal)
    (nE E : ℕ) (init : α) (vP vE : Bool) :
    gruFitRun T s nE E init true vP vE =
      Except.error "Empty training data from dataset, please check your dataset config."
    ∧ isOkE (gruFitRun T s nE E init false vP vE) = true
    ∧ alstmFitRun T s nE E init true vE =
      Except.error "Empty data from dataset, please check your dataset config."
    ∧ alstmFitRun T s nE E init false true =
      Except.error "Empty data from dataset, please check your dataset config." := by
  refine ⟨rfl, ?_, rfl, rfl⟩
  show isOkE (gruFit T s nE E (vP && !vE) init) = true
  rw [gruFit]
  exact fitLoopGo_some_isOk T s E (vP && !vE) nE 0 init init FVal.negInf 0 0 []

/-- Boolean-mask indexing with a mask computed pointwise from the labels
equals filtering the zipped pairs on the same predicate and projecting. -/
lemma maskSelect_map_fst (q : F → Bool) :
    ∀ (xs label : List F), xs.length = label.length →
    maskSelect xs (label.map q) =
      ((xs.zip label).filter (fun p => q p.2)).map (fun p => p.1) := by
  intro xs
  induction xs with
  | nil => intro label _; rfl
  | cons x xs ih =>
    intro label h
    cases label with
    | nil => simp at h
    | cons l ls =>
      have h2 : xs.length = ls.length := by simpa using h
      by_cases hq : q l = true
      · simp only [maskSelect, List.map_cons, List.zip_cons_cons, List.filter_cons, hq,
          if_true]
        exact congrArg (List.cons x) (ih ls h2)
      · simp only [maskSelect, List.map_cons, List.zip_cons_cons, List.filter_cons, hq,
          Bool.false_eq_true, if_false]
        exact ih ls h2

/-- Projecting the labels back out of the filtered pairs gives the
directly filtered labels. -/
lemma filter_zip_map_snd (q : F → Bool) :
    ∀ (xs label : List F), xs.length = label.length →
    ((xs.zip label).filter (fun p => q p.2)).map (fun p => p.2) = label.filter q := by
  intro xs
  induction xs with
  | nil =>
    intro label h
    cases label with
    | nil => rfl
    | cons l ls => simp at h
  | cons x xs ih =>
    intro label h
    cases label with
    | nil => simp at h
    | cons l ls =>
      have h2 : xs.length = ls.length := by simpa using h
      by_cases hq : q l = true
      · simp [List.filter_cons, hq, ih ls h2]
      · simp [List.filter_cons, hq, ih ls h2]

/-- Boolean-mask indexing of the labels by their own mask is a filter. -/
lemma maskSelect_self (q : F → Bool) :
    ∀ label : List F, maskSelect label (label.map q) = label.filter q := by
  intro label
  induction label with
  | nil => rfl
  | cons l ls ih =>
    by_cases hq : q l = true
    · simp only [maskSelect, List.map_cons, List.zip_cons_cons, List.filter_cons, hq,
        if_true]
      exact congrArg (List.cons l) ih
    · simp only [maskSelect, List.map_cons, List.zip_cons_cons, List.filter_cons, hq,
        Bool.false_eq_true, if_false]
      exact ih

/-- C2: for every prediction, label and weight tensor of equal shape,
`loss_fn` with the `mse` identifier equals the mean squared error over
only the pairs whose label is not NaN — the same computation applied to
the pre-filtered NaN-free pair list; for ALSTM the per-sample weights are
restricted to the same mask, and an absent weight defaults to all-ones. -/
theorem loss_fn_masks_nan (pred label w : List F)
    (h1 : pred.length = label.length) (h2 : w.length = label.length) :
    gruLossFn "mse" pred label =
      Except.ok (gruMse ((nanFreePairs pred label).map (fun p => p.1))
        ((nanFreePairs pred label).map (fun p => p.2)))
    ∧ alstmLossFn "mse" pred label (some w) =
      Except.ok (alstmMse ((nanFreePairs pred label).map (fun p => p.1))
        ((nanFreePairs pred label).map (fun p => p.2))
        ((nanFreePairs w label).map (fun p => p.1)))
    ∧ alstmLossFn "mse" pred label none =
      alstmLossFn "mse" pred label (some (onesLike label)) := by
  have hq : maskOf label = label.map (fun v => !(fIsNan v)) := rfl
  refine ⟨?_, ?_, rfl⟩
  · simp only [gruLossFn, nanFreePairs, hq, if_pos]
    rw [maskSelect_map_fst (fun v => !(fIsNan v)) pred label h1,
      maskSelect_self (fun v => !(fIsNan v)) label,
      filter_zip_map_snd (fun v => !(fIsNan v)) pred label h1]
  · simp only [alstmLossFn, nanFreePairs, hq, Option.getD_some, if_pos]
    rw [maskSelect_map_fst (fun v => !(fIsNan v)) pred label h1,
      maskSelect_self (fun v => !(fIsNan v)) label,
      filter_zip_map_snd (fun v => !(fIsNan v)) pred label h1,
      maskSelect_map_fst (fun v => !(fIsNan v)) w label h2]

/-- Witness for C2: a label tensor with a NaN entry. -/
theorem loss_fn_masks_nan_witness :
    (([some 1, some 2] : List F).length = ([some 0, none] : List F).length
      ∧ ([some 1, some 3] : List F).length = ([some 0, none] : List F).length)
    ∧ (gruLossFn "mse" [some 1, some 2] [some 0, none] =
        Except.ok (gruMse ((nanFreePairs [some 1, some 2] [some 0, none]).map (fun p => p.1))
          ((nanFreePairs [some 1, some 2] [some 0, none]).map (fun p => p.2)))
      ∧ alstmLossFn "mse" [some 1, some 2] [some 0, none] (some [some 1, some 3]) =
        Except.ok (alstmMse
          ((nanFreePairs [some 1, some 2] [some 0, none]).map (fun p => p.1))
          ((nanFreePairs [some 1, some 2] [some 0, none]).map (fun p => p.2))
          ((nanFreePairs [some 1, some 3] [some 0, none]).map (fun p => p.1)))
      ∧ alstmLossFn "mse" [some 1, some 2] [some 0, none] none =
        alstmLossFn "mse" [some 1, some 2] [some 0, none]
          (some (onesLike [some 0, none]))) :=
  ⟨⟨by decide, by decide⟩,
    loss_fn_masks_nan [some 1, some 2] [some 0, none] [some 1, some 3]
      (by decide) (by decide)⟩

/-- The errors `np.concatenate` can raise are the empty-input error and
the zero-dimensional-input error. -/
lemma npConcatenate_errors (preds : List NpArr) (e : String)
    (h : npConcatenate preds = Except.error e) :
    e = "need at least one array to concatenate" ∨ e = zeroDimMsg := by
  unfold npConcatenate at h
  by_cases h1 : preds.isEmpty = true
  · rw [if_pos h1] at h
    injection h with he
    exact Or.inl he.symm
  · rw [if_neg h1] at h
    by_cases h2 : preds.any npIsZeroDim = true
    · rw [if_pos h2] at h
      injection h with he
      exact Or.inr he.symm
    · rw [if_neg h2] at h
      exact Except.noConfusion h

/-- The GRU inference loop can fail, but never with the not-ready
message. -/
lemma gruPredictSeriesE_ne_notFitted {γ ι : Type} (net : List γ → List ℚ)
    (bs : ℕ) (xs : List γ) (idx : List ι) :
    gruPredictSeriesE net bs xs idx ≠ Except.error notFittedMsg := by
  intro h
  unfold gruPredictSeriesE at h
  cases hc : npConcatenate (gruPredictBatches net bs (xs.length + 1) xs) with
  | ok v =>
    rw [hc] at h
    exact absurd h (by simp [Except.map])
  | error e =>
    rw [hc] at h
    simp only [Except.map] at h
    injection h with he
    rcases npConcatenate_errors _ e hc with h1 | h1
    · rw [he] at h1
      exact absurd h1 (by decide)
    · rw [he] at h1
      exact absurd h1 (by decide)

/-- The batch loop of `ALSTM.predict` emits one prediction per input row. -/
lemma alstmPredictGo_length {γ : Type} (net : List γ → List ℚ) (bs : ℕ)
    (hbs : 1 ≤ bs) (hnet : ∀ b, (net b).length = b.length) :
    ∀ fuel (xs : List γ), xs.length ≤ fuel →
    (alstmPredictGo net bs fuel xs).length = xs.length := by
  intro fuel
  induction fuel with
  | zero =>
    intro xs h
    have hx : xs = [] := List.length_eq_zero.mp (by omega)
    subst hx; rfl
  | succ f ih =>
    intro xs h
    rw [alstmPredictGo]
    by_cases he : xs.isEmpty = true
    · rw [if_pos he]
      have hx : xs = [] := by simpa [List.isEmpty_iff] using he
      simp [hx]
    · rw [if_neg he]
      rw [List.length_append, hnet (xs.take bs),
        ih (xs.drop bs) (by rw [List.length_drop]; omega)]
      rw [List.length_take, List.length_drop]
      have hx : xs ≠ [] := by simpa [List.isEmpty_iff] using he
      have : 1 ≤ xs.length := List.length_pos.mpr hx
      omega

/-- C3: evaluation of the code at the failing input.  On a non-empty
3-row test segment with `batch_size = 2` and a network producing one
prediction per row, `GRU.predict` raises instead of returning the claimed
index-aligned series: the final under-full batch holds exactly one row, so
the `.squeeze()` in `GRUModel.forward` collapses its output to 0-d and
`np.concatenate` fails.  `ALSTM.predict`, whose forward ends in the
shape-preserving `out[..., 0]`, keeps the index and covers all three rows
of the same segment, as the claim states. -/
theorem gru_predict_one_row_final_batch_raises :
    (∀ b : List ℕ, (b.map (fun _ => (0:ℚ))).length = b.length)
    ∧ gruPredictSeriesE (fun b : List ℕ => b.map (fun _ => (0:ℚ))) 2
        [10, 20, 30] ([5, 6, 7] : List ℕ)
      = Except.error zeroDimMsg
    ∧ (alstmPredictSeries (fun b : List ℕ => b.map (fun _ => (0:ℚ))) 2
        [10, 20, 30] ([5, 6, 7] : List ℕ)).2 = [5, 6, 7]
    ∧ (alstmPredictSeries (fun b : List ℕ => b.map (fun _ => (0:ℚ))) 2
        [10, 20, 30] ([5, 6, 7] : List ℕ)).1.length = 3 :=
  ⟨fun b => by simp, rfl, rfl, rfl⟩

/-- C4: `predict` raises the not-ready error if and only if the `fitted`
flag is false; once `fit` has set the flag (or a checkpoint load set it at
construction) `predict` never raises that error, and the flag is false at
construction exactly when no checkpoint was loaded. -/
theorem predict_iff_fitted {α γ ι : Type} (m : GRUInstance α) (d p : α)
    (net : List γ → List ℚ) (bs : ℕ) (xs : List γ) (idx : List ι) :
    (gruPredictChecked m.fitted net bs xs idx = Except.error notFittedMsg
      ↔ m.fitted = false)
    ∧ gruPredictChecked (gruMarkFitted m).fitted net bs xs idx
        ≠ Except.error notFittedMsg
    ∧ (gruInit d (none : Option α)).fitted = false
    ∧ (gruInit d (some p)).fitted = true := by
  refine ⟨?_, ?_, rfl, rfl⟩
  · cases hm : m.fitted
    · simp [gruPredictChecked]
    · simp [gruPredictChecked, gruPredictSeriesE_ne_notFitted net bs xs idx]
  · simp [gruPredictChecked, gruMarkFitted,
      gruPredictSeriesE_ne_notFitted net bs xs idx]

/-- C5: in `train_epoch`, after `loss.backward()` and the
`clip_grad_value_` call and before `optimizer.step()`, every gradient
element of every network parameter has absolute value at most `3.0`,
whatever raw gradients the backward pass produced. -/
theorem train_epoch_grad_clip (raw : List ℚ) (g : ℚ)
    (hg : g ∈ trainEpochClippedGrads raw) : |g| ≤ 3 := by
  simp only [trainEpochClippedGrads, clipGradValue, gruClipValue, List.mem_map] at hg
  obtain ⟨x, _, rfl⟩ := hg
  rw [abs_le]
  refine ⟨le_min (le_max_right x (-3)) (by norm_num), min_le_right _ 3⟩

/-- Witness for C5: raw gradients 5 and -4 clip to 3 and -3. -/
theorem train_epoch_grad_clip_witness :
    ((3:ℚ) ∈ trainEpochClippedGrads [5, -4]) ∧ |(3:ℚ)| ≤ 3 :=
  ⟨by decide, train_epoch_grad_clip [5, -4] 3 (by decide)⟩

/-- C6: saving a fitted model's parameter state to a checkpoint and
constructing a fresh model with identical hyperparameters (the same
parameter-to-network function) and that checkpoint as `init_model_path`
yields a model whose `predict` output equals the original model's on every
input. -/
theorem checkpoint_roundtrip {α γ ι : Type} (netOf : α → List γ → List ℚ)
    (m : GRUInstance α) (d : α) (bs : ℕ) (xs : List γ) (idx : List ι)
    (h : m.fitted = true) :
    gruStatePredict netOf (gruInit d (some (saveStateDict m))) bs xs idx
      = gruStatePredict netOf m bs xs idx := by
  simp [gruStatePredict, gruInit, saveStateDict, gruPredictChecked, h]

/-- Witness for C6: a trained model with parameter value 7. -/
theorem checkpoint_roundtrip_witness :
    (GRUInstance.mk (7:ℕ) true).fitted = true
    ∧ gruStatePredict (fun p (b : List ℕ) => b.map (fun _ => (p:ℚ)))
        (gruInit 0 (some (saveStateDict (GRUInstance.mk 7 true)))) 2
        [1, 2, 3] ([4, 5, 6] : List ℕ)
      = gruStatePredict (fun p (b : List ℕ) => b.map (fun _ => (p:ℚ)))
        (GRUInstance.mk 7 true) 2 [1, 2, 3] ([4, 5, 6] : List ℕ) :=
  ⟨rfl, checkpoint_roundtrip (fun p (b : List ℕ) => b.map (fun _ => (p:ℚ)))
    (GRUInstance.mk 7 true) 0 2 [1, 2, 3] ([4, 5, 6] : List ℕ) rfl⟩

/-- C7: for every batch example reaching the ALSTM attention sub-network,
the attention weights produced by `att_net` sum to exactly 1 across the
time-step dimension (the softmax denominator is the sum of the positive
kernel values, so the normalized weights total 1; floating-point rounding
is the only deviation in the real run). -/
theorem attention_weights_sum_one {ρ : Type} (e : ℚ → ℚ) (scoreFn : ρ → ℚ)
    (hidden : List ρ) (hne : hidden ≠ []) (hpos : ∀ x, 0 < e x) :
    (attNetWeights e scoreFn hidden).sum = 1 := by
  have hl : hidden.map scoreFn ≠ [] := by
    simpa [List.map_eq_nil_iff] using hne
  have hT : 0 < ((hidden.map scoreFn).map e).sum := by
    apply List.sum_pos
    · intro a ha
      obtain ⟨x, _, rfl⟩ := List.mem_map.mp ha
      exact hpos x
    · simpa [List.map_eq_nil_iff] using hne
  have hT0 : ((hidden.map scoreFn).map e).sum ≠ 0 := ne_of_gt hT
  simp only [attNetWeights, attSoftmax]
  rw [List.map_congr_left
    (fun a _ => div_eq_mul_inv (e a) ((hidden.map scoreFn).map e).sum)]
  rw [List.sum_map_mul_right]
  exact mul_inv_cancel₀ hT0

/-- Witness for C7: two time steps with the positive kernel `x ^ 2 + 1`. -/
theorem attention_weights_sum_one_witness :
    (([(0:ℚ), 1] : List ℚ) ≠ [] ∧ (∀ x : ℚ, 0 < x ^ 2 + 1))
    ∧ (attNetWeights (fun x => x ^ 2 + 1) (fun v : ℚ => v) [(0:ℚ), 1]).sum = 1 :=
  ⟨⟨by decide, fun x => by positivity⟩,
    attention_weights_sum_one (fun x => x ^ 2 + 1) (fun v : ℚ => v) [(0:ℚ), 1]
      (by decide) (fun x => by positivity)⟩
